import Mathlib

/-!
Verification development for the Stud.IP rclone backend
(backend/studip/studip.go).  The Go code is shallowly embedded:

* `Node` mirrors `type Node struct` (the in-memory snapshot tree);
* `GetNodeAtPathGo` mirrors `GetNodeAtPath`, with a Go nil pointer
  modelled as `Option Node` and a nil dereference as `GoPanic`;
* `pathClean`, `filepathDir`, `filepathJoin`, `splitPath` model the Go
  standard-library path helpers used by the backend (`path.Clean`,
  `filepath.Dir`, `filepath.Join`) and the local `splitPath`;
* `fsList` mirrors `Fs.List` including its projection of children into
  directory/object entries and the `sort.Slice(entries, entries.Less)`
  call, where `compareDirEntries` mirrors rclone's `CompareDirEntries`
  (byte-ordinal comparison of the `Remote()` strings, then the entry
  type string);
* the write-class stubs (`FsPut` … `ObjRemove`) mirror the constant
  bodies of `Put`, `Mkdir`, `Rmdir`, `Purge`, `Copy`, `Move`, `DirMove`,
  `SetModTime`, `Update`, `Remove`; each also reports the list of remote
  requests it issues (always empty, as in the source);
* `fillFolderSF` mirrors `FillFolderNode`: the remote store behind a
  folder id is an oracle tree `RFolder`, the goroutine fan-out is made
  explicit by a completion schedule `Sched` (a permutation of the spawn
  order per node), and the unbuffered-channel receive loop is
  `drainErr` / `drainCount`; `fillFolderF` is the schedule-free
  reference recursion.  Recursion depth is bounded by explicit fuel
  (the Go code recurses on an unboundedly deep remote tree).
-/

/-- Errors produced by the fetch layer and the tree builder.  `transport`
carries a tag so distinct remote failures can be told apart; `notAFolder`
is the `errors.New("node isn't a folder")` guard; `noRootFolder` is the
missing-RootFolder error of `RetrieveRootFolderID`; `fuelOut` is the
fuel-exhaustion sentinel of the embedding (never reached on inputs whose
depth is below the supplied fuel). -/
inductive Err where
  | transport (tag : Nat)
  | notAFolder
  | noRootFolder
  | fuelOut
deriving DecidableEq

/-- A Go runtime panic caused by dereferencing a nil pointer. -/
inductive GoPanic where
  | nilDeref
deriving DecidableEq

/-- rclone error values returned by this backend (`fs.ErrorPermissionDenied`,
`fs.ErrorNotImplemented`, `fs.ErrorDirNotFound`). -/
inductive FsError where
  | permissionDenied
  | notImplemented
  | dirNotFound
deriving DecidableEq

/-- In-memory tree node, mirroring `type Node struct` in studip.go:
children, name, id, isDir flag, change date (modelled as `Nat`), size
(`int64`, may be the `-1` sentinel) and content type. -/
inductive Node where
  | mk (children : List Node) (name : String) (id : String) (isDir : Bool)
      (chDate : Nat) (size : Int) (contentType : String)

/-- Accessor for the `Children` field. -/
def Node.children : Node → List Node
  | .mk c _ _ _ _ _ _ => c

/-- Accessor for the `Name` field. -/
def Node.name : Node → String
  | .mk _ n _ _ _ _ _ => n

/-- Accessor for the `Id` field. -/
def Node.id : Node → String
  | .mk _ _ i _ _ _ _ => i

/-- Accessor for the `IsDir` field. -/
def Node.isDir : Node → Bool
  | .mk _ _ _ d _ _ _ => d

/-- Accessor for the `ChDate` field. -/
def Node.chDate : Node → Nat
  | .mk _ _ _ _ t _ _ => t

/-- Accessor for the `Size` field. -/
def Node.size : Node → Int
  | .mk _ _ _ _ _ s _ => s

/-- Accessor for the `ContentType` field. -/
def Node.contentType : Node → String
  | .mk _ _ _ _ _ _ m => m

/-- Model of `GetNodeAtPath(node *Node, pathSplit []string) *Node`.
A Go `*Node` is `Option Node` (`none` = nil).  The source returns `node`
when the segment list is empty or its head is `"."` or `""`; otherwise it
ranges over `node.Children` (a nil dereference when `node` is nil) and
recurses into the first child whose name equals the head segment,
returning nil when there is none. -/
def GetNodeAtPathGo (node : Option Node) : List String → Except GoPanic (Option Node)
  | [] => Except.ok node
  | seg :: rest =>
    if seg = "." then Except.ok node
    else if seg = "" then Except.ok node
    else
      match node with
      | none => Except.error GoPanic.nilDeref
      | some n =>
        match n.children.find? (fun c => c.name == seg) with
        | some c => GetNodeAtPathGo (some c) rest
        | none => Except.ok none

/-- Model of Go `strings.Split` at the character level: splits at every
occurrence of the separator; the empty string yields one empty field. -/
def splitChars (sep : Char) : List Char → List (List Char)
  | [] => [[]]
  | c :: rest =>
    match splitChars sep rest with
    | [] => []
    | g :: gs => if c = sep then [] :: g :: gs else (c :: g) :: gs

/-- Model of `strings.Split(s, "/")` (`os.PathSeparator` is the slash on
the platforms this backend targets). -/
def goSplit (sep : Char) (s : String) : List String :=
  (splitChars sep s.toList).map String.mk

/-- Whether a path begins with a slash (rooted path). -/
def startsWithSlash (p : String) : Bool :=
  match p.toList with
  | c :: _ => c = '/'
  | [] => false

/-- Model of `strings.Join(elems, "/")`. -/
def joinSlash : List String → String
  | [] => ""
  | [s] => s
  | s :: rest => s ++ "/" ++ joinSlash rest

/-- Segment-stack step of `path.Clean`: empty and `"."` segments are
dropped, `".."` pops a non-`".."` top (or is dropped at the root of a
rooted path, or kept when there is nothing to pop in a relative path),
and ordinary segments are pushed. -/
def cleanStep (rooted : Bool) (acc : List String) (seg : String) : List String :=
  if seg = "" ∨ seg = "." then acc
  else if seg = ".." then
    if acc ≠ [] ∧ acc.getLast? ≠ some ".." then acc.dropLast
    else if rooted then acc
    else acc ++ [".."]
  else acc ++ [seg]

/-- Model of Go `path.Clean` (equal to `filepath.Clean` on slash-separated
systems): shortest lexical equivalent of the path. -/
def pathClean (p : String) : String :=
  if p = "" then "."
  else
    let rooted := startsWithSlash p
    let segs := (goSplit '/' p).foldl (cleanStep rooted) []
    if segs = [] then (if rooted then "/" else ".")
    else (if rooted then "/" else "") ++ joinSlash segs

/-- Everything up to and including the final slash of a string (empty when
there is no slash); the argument `filepath.Dir` hands to `Clean`. -/
def upToLastSlash (p : String) : String :=
  String.mk ((p.toList.reverse.dropWhile (fun c => c ≠ '/')).reverse)

/-- Model of Go `filepath.Dir`: all but the last element of the path,
cleaned; `"."` when the path contains no slash. -/
def filepathDir (p : String) : String :=
  pathClean (upToLastSlash p)

/-- Model of Go `filepath.Join` on two elements: non-empty elements joined
with a slash, then cleaned; empty when both are empty. -/
def filepathJoin (a b : String) : String :=
  if a = "" ∧ b = "" then ""
  else if a = "" then pathClean b
  else if b = "" then pathClean a
  else pathClean (a ++ "/" ++ b)

/-- Model of `splitPath` in studip.go: clean the path, return the empty
segment list for `"/"`, and split on slashes otherwise. -/
def splitPath (p : String) : List String :=
  let q := pathClean p
  if q = "/" then [] else goSplit '/' q

/-- Model of the re-rooting step at the end of `NewFs`: for a non-empty
`root` the stored root node becomes whatever `GetNodeAtPath` resolves for
`splitPath(filepath.Dir(root))`, with no check of the result. -/
def newFsReroot (rootNode : Node) (root : String) : Except GoPanic (Option Node) :=
  if root = "" then Except.ok (some rootNode)
  else GetNodeAtPathGo (some rootNode) (splitPath (filepathDir root))

/-- Strict byte-ordinal comparison of character sequences, as Go compares
strings (UTF-8 byte order coincides with code-point order). -/
def charListLt : List Char → List Char → Bool
  | [], [] => false
  | [], _ :: _ => true
  | _ :: _, [] => false
  | a :: as, b :: bs =>
    if a < b then true
    else if b < a then false
    else charListLt as bs

/-- Go string comparison `a < b` (byte-wise ordinal, case-sensitive). -/
def strLt (a b : String) : Bool :=
  charListLt a.toList b.toList

/-- Projected directory entry, mirroring the backend's `Directory` and
`Object` values as built inside `Fs.List` (a `Directory` keeps its name
and item count; an `Object` keeps size and content type). -/
inductive Entry where
  | dir (remote : String) (id : String) (items : Nat) (name : String) (modTime : Nat)
  | obj (remote : String) (id : String) (size : Int) (contentType : String) (modTime : Nat)
deriving DecidableEq

/-- Remote path of a projected entry (`Remote()` in rclone). -/
def Entry.remote : Entry → String
  | .dir r _ _ _ _ => r
  | .obj r _ _ _ _ => r

/-- Type string of an entry as used by rclone's `DirEntryType`. -/
def Entry.typeStr : Entry → String
  | .dir _ _ _ _ _ => "directory"
  | .obj _ _ _ _ _ => "object"

/-- Model of rclone's `CompareDirEntries`: 1 when the first remote is
byte-wise greater, -1 when smaller, then the same comparison on the type
strings, else 0. -/
def compareDirEntries (a b : Entry) : Int :=
  if strLt (Entry.remote b) (Entry.remote a) then 1
  else if strLt (Entry.remote a) (Entry.remote b) then -1
  else if strLt (Entry.typeStr b) (Entry.typeStr a) then 1
  else if strLt (Entry.typeStr a) (Entry.typeStr b) then -1
  else 0

/-- Ordering used by `sort.Slice(entries, entries.Less)`: the complement
of the strict order `CompareDirEntries < 0` in the reverse direction,
stated as `CompareDirEntries ≤ 0`. -/
def entryLeP (a b : Entry) : Prop :=
  compareDirEntries a b ≤ 0

instance (a b : Entry) : Decidable (entryLeP a b) :=
  inferInstanceAs (Decidable (compareDirEntries a b ≤ 0))

/-- Model of the `sort.Slice` call in `Fs.List`: sort the projected
entries by `CompareDirEntries`. -/
def sortEntries (es : List Entry) : List Entry :=
  List.insertionSort entryLeP es

/-- Projection of one child node into a directory or object entry, as in
the loop body of `Fs.List` (`remote` is `filepath.Join(dir, name)`). -/
def entryOf (dir : String) (c : Node) : Entry :=
  if c.isDir then
    Entry.dir (filepathJoin dir c.name) c.id c.children.length c.name c.chDate
  else
    Entry.obj (filepathJoin dir c.name) c.id c.size c.contentType c.chDate

/-- Model of `Fs.List(dir)`: split `dir` on the path separator, resolve it
with `GetNodeAtPath`, then evaluate `!node.IsDir || node == nil` — note the
source dereferences `node` in `!node.IsDir` before the nil check, so a nil
resolution is a `GoPanic`, not `ErrorDirNotFound` — and finally project and
sort the children. -/
def fsList (rootNode : Option Node) (dir : String) :
    Except GoPanic (Except FsError (List Entry)) :=
  let pathSplit := goSplit '/' dir
  match GetNodeAtPathGo rootNode pathSplit with
  | Except.error p => Except.error p
  | Except.ok none => Except.error GoPanic.nilDeref
  | Except.ok (some node) =>
    if node.isDir = false then Except.ok (Except.error FsError.dirNotFound)
    else Except.ok (Except.ok (sortEntries (node.children.map (entryOf dir))))

/-- Lower-casing of a string, character by character (the locale-agnostic
case folding the specification describes). -/
def lowerStr (s : String) : String :=
  String.mk (s.toList.map Char.toLower)

/-- Modelled from the spec: the case-insensitive, locale-agnostic ordinal
ordering the specification claims the listing is sorted by (fold case,
then byte-ordinal).  Stated only to compare against the code's actual
case-sensitive ordering. -/
def ciLe (a b : String) : Prop :=
  strLt (lowerStr a) (lowerStr b) = true ∨ lowerStr a = lowerStr b

instance (a b : String) : Decidable (ciLe a b) :=
  inferInstanceAs (Decidable (strLt (lowerStr a) (lowerStr b) = true ∨ lowerStr a = lowerStr b))

/-- Model of `Fs.Put`: returns `fs.ErrorPermissionDenied`, issuing no
remote request. -/
def FsPut (src : String) : FsError × List String :=
  (FsError.permissionDenied, [])

/-- Model of `Fs.Mkdir`. -/
def FsMkdir (dir : String) : FsError × List String :=
  (FsError.permissionDenied, [])

/-- Model of `Fs.Rmdir`. -/
def FsRmdir (dir : String) : FsError × List String :=
  (FsError.permissionDenied, [])

/-- Model of `Fs.Purge`. -/
def FsPurge (dir : String) : FsError × List String :=
  (FsError.permissionDenied, [])

/-- Model of `Fs.Copy`. -/
def FsCopy (src remote : String) : FsError × List String :=
  (FsError.permissionDenied, [])

/-- Model of `Fs.Move`. -/
def FsMove (src remote : String) : FsError × List String :=
  (FsError.permissionDenied, [])

/-- Model of `Fs.DirMove`. -/
def FsDirMove (srcRemote dstRemote : String) : FsError × List String :=
  (FsError.permissionDenied, [])

/-- Model of `Object.SetModTime`: the source returns
`fs.ErrorNotImplemented`, issuing no remote request. -/
def ObjSetModTime (t : Nat) : FsError × List String :=
  (FsError.notImplemented, [])

/-- Model of `Object.Update`: returns `fs.ErrorNotImplemented`. -/
def ObjUpdate (src : String) : FsError × List String :=
  (FsError.notImplemented, [])

/-- Model of `Object.Remove`: returns `fs.ErrorNotImplemented`. -/
def ObjRemove : FsError × List String :=
  (FsError.notImplemented, [])

/-- One record of the decoded `courses/{id}/folders` response, keeping the
fields `RetrieveRootFolderID` consults. -/
structure FoldersData where
  folderType : String
  id : String
deriving DecidableEq

/-- Model of `RetrieveRootFolderID` over the decoded response: the id of
the first entry whose folder type is `"RootFolder"`, or an error when no
entry matches (`slices.IndexFunc` returning -1). -/
def retrieveRootFolderID (data : List FoldersData) : Except Err String :=
  match data.find? (fun e => e.folderType == "RootFolder") with
  | some e => Except.ok e.id
  | none => Except.error Err.noRootFolder

/-- Metadata of one subfolder record returned by
`RetrieveFoldersOfFolder` (id, name, change date). -/
structure FolderMeta where
  id : String
  name : String
  chdate : Nat
deriving DecidableEq

/-- One file record returned by `RetrieveFilesOfFolder`, keeping the
fields `FillFolderNode` consults. -/
structure FileData where
  id : String
  name : String
  chdate : Nat
  filesize : Int
  mimeType : String
  isReadable : Bool
  isDownloadable : Bool
deriving DecidableEq

/-- Remote-store oracle behind one folder id: the outcome of the
subfolder fetch (`subErr` set means the fetch fails, otherwise `subs` is
the decoded record list, each paired with the oracle of the folder behind
its id) and the outcome of the file fetch likewise. -/
inductive RFolder where
  | mk (subErr : Option Err) (subs : List (FolderMeta × RFolder))
      (filesErr : Option Err) (files : List FileData)

/-- Accessor for the subfolder fetch outcome of the oracle. -/
def RFolder.subErr : RFolder → Option Err
  | .mk e _ _ _ => e

/-- Accessor for the subfolder records of the oracle. -/
def RFolder.subs : RFolder → List (FolderMeta × RFolder)
  | .mk _ s _ _ => s

/-- Accessor for the file fetch outcome of the oracle. -/
def RFolder.filesErr : RFolder → Option Err
  | .mk _ _ e _ => e

/-- Accessor for the file records of the oracle. -/
def RFolder.files : RFolder → List FileData
  | .mk _ _ _ f => f

/-- Completion schedule for the goroutine fan-out: at each folder,
`perm` gives the order (as indices into the spawn order) in which the
spawned child tasks deliver on the error channel, and `kids` gives the
schedules of the child subtrees (spawn order; missing entries default to
the empty schedule). -/
inductive Sched where
  | mk (perm : List Nat) (kids : List Sched)

/-- Filter of `FillFolderNode`'s file loop: a file is kept iff it is both
readable and downloadable. -/
def fileKeep (f : FileData) : Bool :=
  f.isReadable && f.isDownloadable

/-- Leaf node built for a kept file record. -/
def fileToNode (f : FileData) : Node :=
  Node.mk [] f.name f.id false f.chdate f.filesize f.mimeType

/-- Directory node created for a subfolder record before its subtree is
filled (size sentinel -1, no children). -/
def subToNode (m : FolderMeta) : Node :=
  Node.mk [] m.name m.id true m.chdate (-1) ""

/-- Children assembly of a successful `FillFolderNode` call: the node's
previous children, then the filled subfolder nodes in spawn order, then
the kept file leaves in fetch order. -/
def nodeFilled (node : Node) (childNodes : List Node) (files : List FileData) : Node :=
  Node.mk (node.children ++ childNodes ++ (files.filter fileKeep).map fileToNode)
    node.name node.id node.isDir node.chDate node.size node.contentType

/-- Receive loop of the barrier (`for range length { err := <-errChan; … }`)
applied to the channel values in arrival order: the first error received,
if any.  The source returns it immediately. -/
def drainErr : List (Except Err Node) → Option Err
  | [] => none
  | Except.ok _ :: rest => drainErr rest
  | Except.error e :: _ => some e

/-- Number of channel receives the loop performs on the given arrival
sequence: all of them when no error arrives, and only the prefix up to
and including the first error otherwise. -/
def drainCount : List (Except Err Node) → Nat
  | [] => 0
  | Except.ok _ :: rest => 1 + drainCount rest
  | Except.error _ :: _ => 1

/-- Reorders the spawn-order outcome list into channel-arrival order:
when `perm` is a permutation of the outcome indices the arrivals are the
outcomes read off in that order, otherwise the schedule is ignored and
spawn order is used.  Either way the arrivals are a permutation of the
outcomes. -/
def applyPerm (perm : List Nat) (xs : List α) : List α :=
  if perm.isPerm (List.range xs.length) then perm.filterMap (fun i => xs[i]?) else xs

/-- Pads the schedule list of the children to the length of the subfolder
list, pairing each spawned child with its schedule (the empty schedule
when the supplied list is too short). -/
def zipSched : List Sched → List (FolderMeta × RFolder) → List (Sched × (FolderMeta × RFolder))
  | _, [] => []
  | [], p :: rest => (Sched.mk [] [], p) :: zipSched [] rest
  | s :: ss, p :: rest => (s, p) :: zipSched ss rest

/-- Model of `FillFolderNode` under a completion schedule, with explicit
fuel bounding the recursion depth.  Mirrors the source order: the
`!folderNode.IsDir` guard, the subfolder fetch, child-node creation and
append in fetch order, the concurrent recursion into every child with the
barrier receive loop over the arrival order given by the schedule, the
file fetch, and the filtered file append.  Returns the call's result
together with the number of channel receives its own barrier performed. -/
def fillFolderSF : Nat → Sched → Node → RFolder → Except Err Node × Nat
  | 0, _, _, _ => (Except.error Err.fuelOut, 0)
  | fuel + 1, Sched.mk perm kids, node, RFolder.mk subErr subs filesErr files =>
    if node.isDir = false then (Except.error Err.notAFolder, 0)
    else
      match subErr with
      | some e => (Except.error e, 0)
      | none =>
        let outcomes := (zipSched kids subs).map
          (fun q => (fillFolderSF fuel q.1 (subToNode q.2.1) q.2.2).1)
        let arrivals := applyPerm perm outcomes
        match drainErr arrivals with
        | some e => (Except.error e, drainCount arrivals)
        | none =>
          match filesErr with
          | some e => (Except.error e, drainCount arrivals)
          | none =>
            (Except.ok (nodeFilled node (outcomes.filterMap Except.toOption) files),
              drainCount arrivals)

/-- Schedule-free reference recursion: identical to `fillFolderSF` except
that the barrier reads the child outcomes in spawn order.  Used to state
that the shape of a successfully built tree does not depend on the
completion schedule. -/
def fillFolderF : Nat → Node → RFolder → Except Err Node
  | 0, _, _ => Except.error Err.fuelOut
  | fuel + 1, node, RFolder.mk subErr subs filesErr files =>
    if node.isDir = false then Except.error Err.notAFolder
    else
      match subErr with
      | some e => Except.error e
      | none =>
        let outcomes := subs.map (fun p => fillFolderF fuel (subToNode p.1) p.2)
        match drainErr outcomes with
        | some e => Except.error e
        | none =>
          match filesErr with
          | some e => Except.error e
          | none =>
            Except.ok (nodeFilled node (outcomes.filterMap Except.toOption) files)

/-- Root-denoting listing target used in the C2 example: a snapshot whose
root has no children at all. -/
def c2Root : Node :=
  Node.mk [] "" "rootid" true 0 0 ""

/-- Snapshot used by the re-rooting example: a root with one file child
named notes.txt, and no child named ghost. -/
def c10Tree : Node :=
  Node.mk [Node.mk [] "notes.txt" "f1" false 3 5 "text/plain"] "" "rootid" true 0 0 ""

/-- Concrete folder listing for the C7 witness: the root entry is second. -/
def c7Data : List FoldersData :=
  [FoldersData.mk ("StandardFolder") ("x1"), FoldersData.mk ("RootFolder") ("r9")]

/-- Remote oracle for the C1 example: the folder being filled has two
subfolders; the subtree build of the first fails (its own subfolder fetch
reports a transport error) and the second succeeds. -/
def c1RF : RFolder :=
  RFolder.mk none
    [(FolderMeta.mk ("f1") ("alpha") 1, RFolder.mk (some (Err.transport 7)) [] none []),
     (FolderMeta.mk ("f2") ("beta") 2, RFolder.mk none [] none [])]
    none []

/-- Completion schedule for the C1 example: the failing child task
delivers on the error channel first. -/
def c1Sched : Sched :=
  Sched.mk [0, 1] []

/-- Node being filled in the C1 example (the course root seed). -/
def c1Seed : Node :=
  Node.mk [] "" "rootid" true 0 0 ""

/-- Listing example for C4: a directory with file children fetched in the
order b, A, c. -/
def c4Node : Node :=
  Node.mk
    [Node.mk [] "b" "i1" false 1 4 "text/plain",
     Node.mk [] "A" "i2" false 2 6 "text/plain",
     Node.mk [] "c" "i3" false 3 8 "text/plain"]
    "" "rootid" true 0 0 ""

/-- Projected entry of the child named A in `c4Node`. -/
def c4eA : Entry :=
  Entry.obj ("A") ("i2") 6 ("text/plain") 2

/-- Projected entry of the child named b in `c4Node`. -/
def c4eb : Entry :=
  Entry.obj ("b") ("i1") 4 ("text/plain") 1

/-- Projected entry of the child named c in `c4Node`. -/
def c4ec : Entry :=
  Entry.obj ("c") ("i3") 8 ("text/plain") 3

/-- Counterexample listing for C4: file children fetched in the order
B, a — byte order and case-insensitive order disagree here. -/
def c4CexNode : Node :=
  Node.mk
    [Node.mk [] "B" "i1" false 1 4 "text/plain",
     Node.mk [] "a" "i2" false 2 6 "text/plain"]
    "" "rootid" true 0 0 ""

/-- Projected entry of the child named B in `c4CexNode`. -/
def c4CexB : Entry :=
  Entry.obj ("B") ("i1") 4 ("text/plain") 1

/-- Projected entry of the child named a in `c4CexNode`. -/
def c4Cexa : Entry :=
  Entry.obj ("a") ("i2") 6 ("text/plain") 2

/-- Readable and downloadable file record of the build example. -/
def exGood : FileData :=
  FileData.mk ("g1") ("notes.txt") 5 12 ("text/plain") true true

/-- Non-readable file record of the build example (excluded from the
tree). -/
def exBad : FileData :=
  FileData.mk ("bad1") ("secret.pdf") 6 9 ("application/pdf") false true

/-- Subfolder records of the build example: two empty subfolders. -/
def exSubs : List (FolderMeta × RFolder) :=
  [(FolderMeta.mk ("f1") ("alpha") 1, RFolder.mk none [] none []),
   (FolderMeta.mk ("f2") ("beta") 2, RFolder.mk none [] none [])]

/-- File records of the build example. -/
def exFiles : List FileData :=
  [exGood, exBad]

/-- Seed node of the build example (the course root). -/
def exSeed : Node :=
  Node.mk [] "" "rootid" true 0 0 ""

/-- Completion schedule of the build example: the second spawned child
task delivers first (reversed completion order). -/
def exSched : Sched :=
  Sched.mk [1, 0] []

/-- Tree built by the example: both subfolder nodes in fetch order, then
the single kept file leaf. -/
def exT : Node :=
  Node.mk
    [Node.mk [] "alpha" "f1" true 1 (-1) "",
     Node.mk [] "beta" "f2" true 2 (-1) "",
     Node.mk [] "notes.txt" "g1" false 5 12 "text/plain"]
    "" "rootid" true 0 0 ""

theorem charListLt_irrefl : ∀ (as : List Char), charListLt as as = false := by
  intro as
  induction as with
  | nil => rfl
  | cons a as ih => simp [charListLt, ih]

theorem charListLt_asymm : ∀ {as bs : List Char},
    charListLt as bs = true → charListLt bs as = false := by
  intro as
  induction as with
  | nil =>
    intro bs h
    cases bs with
    | nil => simpa [charListLt] using h
    | cons b bs => simp [charListLt]
  | cons a as ih =>
    intro bs h
    cases bs with
    | nil => simpa [charListLt] using h
    | cons b bs =>
      simp only [charListLt] at h ⊢
      rcases lt_trichotomy a b with hab | hab | hab
      · simp [hab, not_lt.mpr hab.le, lt_asymm hab]
      · subst hab
        simp only [lt_irrefl, if_false] at h ⊢
        exact ih h
      · simp [hab, not_lt.mpr hab.le, lt_asymm hab] at h

theorem charListLt_trans : ∀ {as bs cs : List Char},
    charListLt as bs = true → charListLt bs cs = true → charListLt as cs = true := by
  intro as
  induction as with
  | nil =>
    intro bs cs hab hbc
    cases cs with
    | nil =>
      cases bs with
      | nil => exact hab
      | cons b bs => simp [charListLt] at hbc
    | cons c cs => simp [charListLt]
  | cons a as ih =>
    intro bs cs hab hbc
    cases bs with
    | nil => simp [charListLt] at hab
    | cons b bs =>
      cases cs with
      | nil => simp [charListLt] at hbc
      | cons c cs =>
        simp only [charListLt] at hab hbc ⊢
        rcases lt_trichotomy a b with h1 | h1 | h1
        · rcases lt_trichotomy b c with h2 | h2 | h2
          · simp [lt_trans h1 h2]
          · subst h2
            simp [h1]
          · exfalso
            rw [if_neg (lt_asymm h2), if_pos h2] at hbc
            exact Bool.false_ne_true hbc
        · subst h1
          rcases lt_trichotomy a c with h2 | h2 | h2
          · simp [h2]
          · subst h2
            simp only [lt_irrefl, if_false] at hab hbc ⊢
            exact ih hab hbc
          · exfalso
            rw [if_neg (lt_asymm h2), if_pos h2] at hbc
            exact Bool.false_ne_true hbc
        · exfalso
          rw [if_neg (lt_asymm h1), if_pos h1] at hab
          exact Bool.false_ne_true hab

theorem charListLt_conn : ∀ {as bs : List Char},
    charListLt as bs = false → charListLt bs as = false → as = bs := by
  intro as
  induction as with
  | nil =>
    intro bs hab _
    cases bs with
    | nil => rfl
    | cons b bs => simp [charListLt] at hab
  | cons a as ih =>
    intro bs hab hba
    cases bs with
    | nil => simp [charListLt] at hba
    | cons b bs =>
      simp only [charListLt] at hab hba
      rcases lt_trichotomy a b with h1 | h1 | h1
      · simp [h1] at hab
      · subst h1
        simp only [lt_irrefl, if_false] at hab hba
        rw [ih hab hba]
      · simp [h1, not_lt.mpr h1.le] at hba

theorem strLt_asymm {a b : String} (h : strLt a b = true) : strLt b a = false :=
  charListLt_asymm h

theorem strLt_irrefl (a : String) : strLt a a = false :=
  charListLt_irrefl a.toList

theorem strLt_conn {a b : String} (hab : strLt a b = false) (hba : strLt b a = false) :
    a = b := by
  have : a.toList = b.toList := charListLt_conn hab hba
  cases a
  cases b
  simpa [String.toList] using congrArg String.mk this

/-- The sorting relation of the listing is equivalent to the lexicographic
description: strictly smaller remote, or equal remotes and a
less-or-equal type string. -/
theorem entryLeP_iff_lex (a b : Entry) : entryLeP a b ↔
    strLt (Entry.remote a) (Entry.remote b) = true ∨
      (Entry.remote a = Entry.remote b ∧
        (strLt (Entry.typeStr a) (Entry.typeStr b) = true ∨
          Entry.typeStr a = Entry.typeStr b)) := by
  unfold entryLeP compareDirEntries
  split_ifs with h1 h2 h3 h4
  · constructor
    · intro hle
      exact absurd hle (by norm_num)
    · rintro (hlt | ⟨heq, _⟩)
      · rw [strLt_asymm hlt] at h1
        cases h1
      · rw [heq] at h1
        rw [strLt_irrefl] at h1
        cases h1
  · constructor
    · intro _
      exact Or.inl h2
    · intro _
      norm_num
  · have hre : Entry.remote a = Entry.remote b :=
      strLt_conn (Bool.of_not_eq_true h2) (Bool.of_not_eq_true h1)
    constructor
    · intro hle
      exact absurd hle (by norm_num)
    · rintro (hlt | ⟨_, hty | hty⟩)
      · rw [hlt] at h2
        cases h2 rfl
      · rw [strLt_asymm hty] at h3
        cases h3
      · rw [hty] at h3
        rw [strLt_irrefl] at h3
        cases h3
  · have hre : Entry.remote a = Entry.remote b :=
      strLt_conn (Bool.of_not_eq_true h2) (Bool.of_not_eq_true h1)
    constructor
    · intro _
      exact Or.inr ⟨hre, Or.inl h4⟩
    · intro _
      norm_num
  · have hre : Entry.remote a = Entry.remote b :=
      strLt_conn (Bool.of_not_eq_true h2) (Bool.of_not_eq_true h1)
    have hty : Entry.typeStr a = Entry.typeStr b :=
      strLt_conn (Bool.of_not_eq_true h4) (Bool.of_not_eq_true h3)
    constructor
    · intro _
      exact Or.inr ⟨hre, Or.inr hty⟩
    · intro _
      norm_num

instance : IsTotal Entry entryLeP := by
  constructor
  intro a b
  rw [entryLeP_iff_lex, entryLeP_iff_lex]
  cases hab : strLt (Entry.remote a) (Entry.remote b) with
  | true => exact Or.inl (Or.inl rfl)
  | false =>
    cases hba : strLt (Entry.remote b) (Entry.remote a) with
    | true => exact Or.inr (Or.inl rfl)
    | false =>
      have hre := strLt_conn hab hba
      cases hty : strLt (Entry.typeStr a) (Entry.typeStr b) with
      | true => exact Or.inl (Or.inr ⟨hre, Or.inl rfl⟩)
      | false =>
        cases htyb : strLt (Entry.typeStr b) (Entry.typeStr a) with
        | true => exact Or.inr (Or.inr ⟨hre.symm, Or.inl rfl⟩)
        | false => exact Or.inl (Or.inr ⟨hre, Or.inr (strLt_conn hty htyb)⟩)

instance : IsTrans Entry entryLeP := by
  constructor
  intro a b c hab hbc
  rw [entryLeP_iff_lex] at hab hbc ⊢
  rcases hab with h1 | ⟨h1, ht1⟩
  · rcases hbc with h2 | ⟨h2, _⟩
    · exact Or.inl (charListLt_trans h1 h2)
    · exact Or.inl (h2 ▸ h1)
  · rcases hbc with h2 | ⟨h2, ht2⟩
    · exact Or.inl (h1 ▸ h2)
    · refine Or.inr ⟨h1.trans h2, ?_⟩
      rcases ht1 with ht1 | ht1
      · rcases ht2 with ht2 | ht2
        · exact Or.inl (charListLt_trans ht1 ht2)
        · exact Or.inl (ht2 ▸ ht1)
      · rcases ht2 with ht2 | ht2
        · exact Or.inl (ht1 ▸ ht2)
        · exact Or.inr (ht1.trans ht2)

theorem filterMap_getElem_range : ∀ (xs : List α),
    (List.range xs.length).filterMap (fun i => xs[i]?) = xs := by
  intro xs
  induction xs with
  | nil => rfl
  | cons a xs ih =>
    rw [List.length_cons, List.range_succ_eq_map, List.filterMap_cons]
    simp only [List.getElem?_cons_zero, List.filterMap_map]
    have hfun : ((fun i => (a :: xs)[i]?) ∘ Nat.succ) = fun i => xs[i]? := by
      funext i
      simp
    rw [hfun, ih]

theorem applyPerm_perm (perm : List Nat) (xs : List α) :
    List.Perm (applyPerm perm xs) xs := by
  unfold applyPerm
  split
  case isTrue h =>
    have hp : List.Perm perm (List.range xs.length) := List.isPerm_iff.mp h
    have h1 := hp.filterMap (fun i => xs[i]?)
    rw [filterMap_getElem_range] at h1
    exact h1
  case isFalse h => exact List.Perm.refl xs

theorem drainErr_none_all_ok : ∀ (l : List (Except Err Node)), drainErr l = none →
    ∀ x ∈ l, ∃ n, x = Except.ok n := by
  intro l
  induction l with
  | nil =>
    intro _ x hx
    cases hx
  | cons h t ih =>
    cases h with
    | ok n =>
      intro hd x hx
      rcases List.mem_cons.mp hx with hx | hx
      · exact ⟨n, hx⟩
      · exact ih (by simpa [drainErr] using hd) x hx
    | error e =>
      intro hd
      simp [drainErr] at hd

theorem drainErr_all_ok_none : ∀ (l : List (Except Err Node)),
    (∀ x ∈ l, ∃ n, x = Except.ok n) → drainErr l = none := by
  intro l
  induction l with
  | nil => intro _; rfl
  | cons h t ih =>
    intro hall
    obtain ⟨n, hn⟩ := hall h (List.mem_cons_self h t)
    subst hn
    simp only [drainErr]
    exact ih (fun x hx => hall x (List.mem_cons_of_mem _ hx))

theorem zipSched_cons (kids : List Sched) (p : FolderMeta × RFolder)
    (rest : List (FolderMeta × RFolder)) :
    ∃ s0 kids0, zipSched kids (p :: rest) = (s0, p) :: zipSched kids0 rest := by
  cases kids with
  | nil => exact ⟨Sched.mk [] [], [], rfl⟩
  | cons s ss => exact ⟨s, ss, rfl⟩

theorem fillS_ok_destruct (fuel : Nat) (perm : List Nat) (kids : List Sched) (node : Node)
    (subErr : Option Err) (subs : List (FolderMeta × RFolder)) (filesErr : Option Err)
    (files : List FileData) (t : Node)
    (h : (fillFolderSF (fuel + 1) (Sched.mk perm kids) node
        (RFolder.mk subErr subs filesErr files)).1 = Except.ok t) :
    node.isDir = true ∧ subErr = none ∧ filesErr = none ∧
    (∀ x ∈ (zipSched kids subs).map
        (fun q => (fillFolderSF fuel q.1 (subToNode q.2.1) q.2.2).1), ∃ n, x = Except.ok n) ∧
    t = nodeFilled node
        (((zipSched kids subs).map
          (fun q => (fillFolderSF fuel q.1 (subToNode q.2.1) q.2.2).1)).filterMap Except.toOption)
        files := by
  simp only [fillFolderSF] at h
  by_cases hd : node.isDir = false
  · rw [if_pos hd] at h
    simp at h
  · rw [if_neg hd] at h
    have hdt : node.isDir = true := by
      revert hd
      cases node.isDir <;> simp
    cases subErr with
    | some e => simp at h
    | none =>
      simp only at h
      cases hdr : drainErr (applyPerm perm ((zipSched kids subs).map
          (fun q => (fillFolderSF fuel q.1 (subToNode q.2.1) q.2.2).1))) with
      | some e =>
        rw [hdr] at h
        simp at h
      | none =>
        rw [hdr] at h
        cases filesErr with
        | some e => simp at h
        | none =>
          simp only [Except.ok.injEq] at h
          have hall : ∀ x ∈ (zipSched kids subs).map
              (fun q => (fillFolderSF fuel q.1 (subToNode q.2.1) q.2.2).1),
              ∃ n, x = Except.ok n := by
            intro x hx
            exact drainErr_none_all_ok _ hdr x ((applyPerm_perm perm _).mem_iff.mpr hx)
          exact ⟨hdt, rfl, rfl, hall, h.symm⟩

theorem zip_outcomes_eq (fuel : Nat)
    (ih : ∀ (s : Sched) (node : Node) (rf : RFolder) (t : Node),
      (fillFolderSF fuel s node rf).1 = Except.ok t → fillFolderF fuel node rf = Except.ok t) :
    ∀ (kids : List Sched) (subs : List (FolderMeta × RFolder)),
    (∀ x ∈ (zipSched kids subs).map
        (fun q => (fillFolderSF fuel q.1 (subToNode q.2.1) q.2.2).1),
      ∃ n, x = Except.ok n) →
    subs.map (fun p => fillFolderF fuel (subToNode p.1) p.2)
      = (zipSched kids subs).map
        (fun q => (fillFolderSF fuel q.1 (subToNode q.2.1) q.2.2).1) := by
  intro kids subs
  induction subs generalizing kids with
  | nil =>
    intro _
    cases kids <;> rfl
  | cons p rest ihs =>
    intro hall
    obtain ⟨s0, kids0, hz⟩ := zipSched_cons kids p rest
    rw [hz] at hall ⊢
    simp only [List.map_cons] at hall ⊢
    obtain ⟨n, hn⟩ := hall _ (List.mem_cons_self _ _)
    rw [hn, ih s0 (subToNode p.1) p.2 n hn,
      ihs kids0 (fun x hx => hall x (List.mem_cons_of_mem _ hx))]

theorem fillS_ok_imp_fill : ∀ (fuel : Nat) (s : Sched) (node : Node) (rf : RFolder) (t : Node),
    (fillFolderSF fuel s node rf).1 = Except.ok t → fillFolderF fuel node rf = Except.ok t := by
  intro fuel
  induction fuel with
  | zero =>
    intro s node rf t h
    simp [fillFolderSF] at h
  | succ fuel ih =>
    intro s node rf t h
    obtain ⟨perm, kids⟩ := s
    obtain ⟨subErr, subs, filesErr, files⟩ := rf
    obtain ⟨hd, hse, hfe, hall, ht⟩ :=
      fillS_ok_destruct fuel perm kids node subErr subs filesErr files t h
    subst hse
    subst hfe
    have hmap := zip_outcomes_eq fuel ih kids subs hall
    have hdrain : drainErr (subs.map (fun p => fillFolderF fuel (subToNode p.1) p.2)) = none := by
      rw [hmap]
      exact drainErr_all_ok_none _ hall
    simp only [fillFolderF, hd]
    simp only [Bool.true_eq_false, if_false]
    rw [hdrain, hmap, ht]

theorem outcomes_forall2 (fuel : Nat) :
    ∀ (kids : List Sched) (subs : List (FolderMeta × RFolder)),
    (∀ x ∈ (zipSched kids subs).map
        (fun q => (fillFolderSF fuel q.1 (subToNode q.2.1) q.2.2).1),
      ∃ n, x = Except.ok n) →
    List.Forall₂
      (fun (c : Node) (p : FolderMeta × RFolder) =>
        c.name = p.1.name ∧ c.id = p.1.id ∧ c.isDir = true)
      (((zipSched kids subs).map
        (fun q => (fillFolderSF fuel q.1 (subToNode q.2.1) q.2.2).1)).filterMap Except.toOption)
      subs := by
  intro kids subs
  induction subs generalizing kids with
  | nil =>
    intro _
    cases kids <;> exact List.Forall₂.nil
  | cons p rest ihs =>
    intro hall
    obtain ⟨s0, kids0, hz⟩ := zipSched_cons kids p rest
    rw [hz] at hall ⊢
    simp only [List.map_cons] at hall ⊢
    obtain ⟨n, hn⟩ := hall _ (List.mem_cons_self _ _)
    rw [hn]
    simp only [List.filterMap_cons, Except.toOption]
    refine List.Forall₂.cons ?_ (ihs kids0 (fun x hx => hall x (List.mem_cons_of_mem _ hx)))
    cases fuel with
    | zero => simp [fillFolderSF] at hn
    | succ fuel =>
      obtain ⟨perm0, kids1⟩ := s0
      obtain ⟨m, rf2⟩ := p
      obtain ⟨se, ss, fe, fl⟩ := rf2
      obtain ⟨_, _, _, _, ht⟩ :=
        fillS_ok_destruct fuel perm0 kids1 (subToNode m) se ss fe fl n hn
      subst ht
      simp [nodeFilled, subToNode, Node.name, Node.id, Node.isDir]

theorem forall2_isDir {cs : List Node} {subs : List (FolderMeta × RFolder)}
    (h : List.Forall₂ (fun (c : Node) (p : FolderMeta × RFolder) =>
      c.name = p.1.name ∧ c.id = p.1.id ∧ c.isDir = true) cs subs) :
    ∀ c ∈ cs, c.isDir = true := by
  induction h with
  | nil =>
    intro c hc
    cases hc
  | cons hr _ ih =>
    intro c hc
    rcases List.mem_cons.mp hc with hc | hc
    · subst hc
      exact hr.2.2
    · exact ih c hc

/-- C6: resolving the empty segment sequence, the single segment dot, or
the single empty segment against any node (nil included) returns that
same node unchanged. -/
theorem getNodeAtPath_root_identity (node : Option Node) :
    GetNodeAtPathGo node [] = Except.ok node ∧
    GetNodeAtPathGo node ["."] = Except.ok node ∧
    GetNodeAtPathGo node [""] = Except.ok node := by
  refine ⟨rfl, ?_, ?_⟩ <;> simp [GetNodeAtPathGo]

/-- C9: a segment sequence whose first segment is a dot or the empty
string resolves to the current node immediately, ignoring every remaining
segment (so resolving dot-then-docs returns the node itself, not its
child named docs). -/
theorem getNodeAtPath_dot_ignores_rest (node : Option Node) (rest : List String) :
    GetNodeAtPathGo node ("." :: rest) = Except.ok node ∧
    GetNodeAtPathGo node ("" :: rest) = Except.ok node := by
  constructor <;> simp [GetNodeAtPathGo]

/-- C10: with the non-empty root `ghost/f.txt`, `NewFs` re-roots at the
resolution of the parent directory of the root (`filepath.Dir` gives
`ghost`, whose segments resolve to nil in the snapshot) without checking
the result: the stored root node is nil and no initialization error is
returned. -/
theorem newFs_reroot_nil_unchecked :
    splitPath (filepathDir ("ghost/f.txt")) = ["ghost"] ∧
    newFsReroot c10Tree ("ghost/f.txt") = Except.ok none := by
  constructor <;> rfl

/-- C2 (code bug): listing a path whose first segment matches no child
name makes `GetNodeAtPath` resolve to nil, and `Fs.List` then dereferences
the nil node in `!node.IsDir` before its `node == nil` check — a runtime
nil-pointer panic, not the `ErrorDirNotFound` return that the claim (and
the List doc comment in the source) promises. -/
theorem list_nil_node_panics :
    GetNodeAtPathGo (some c2Root) (goSplit '/' ("missing")) = Except.ok none ∧
    fsList (some c2Root) ("missing") = Except.error GoPanic.nilDeref := by
  constructor <;> rfl

/-- C3 counterexample: `Object.SetModTime` returns
`fs.ErrorNotImplemented`, which is not `fs.ErrorPermissionDenied`. -/
theorem setModTime_not_permissionDenied :
    ObjSetModTime 0 = (FsError.notImplemented, []) ∧
    FsError.notImplemented ≠ FsError.permissionDenied :=
  ⟨rfl, by decide⟩

/-- C3 (amended): the Fs-level write-class operations (Put, Mkdir, Rmdir,
Purge, Copy, Move, DirMove) all return PermissionDenied and issue no
remote request, while the Object-level operations SetModTime, Update and
Remove return NotImplemented and likewise issue no remote request. -/
theorem write_ops_errors (s d r t : String) (n : Nat) :
    FsPut s = (FsError.permissionDenied, []) ∧
    FsMkdir d = (FsError.permissionDenied, []) ∧
    FsRmdir d = (FsError.permissionDenied, []) ∧
    FsPurge d = (FsError.permissionDenied, []) ∧
    FsCopy s r = (FsError.permissionDenied, []) ∧
    FsMove s r = (FsError.permissionDenied, []) ∧
    FsDirMove s t = (FsError.permissionDenied, []) ∧
    ObjSetModTime n = (FsError.notImplemented, []) ∧
    ObjUpdate s = (FsError.notImplemented, []) ∧
    ObjRemove = (FsError.notImplemented, []) :=
  ⟨rfl, rfl, rfl, rfl, rfl, rfl, rfl, rfl, rfl, rfl⟩

/-- C7: `RetrieveRootFolderID` succeeds exactly when the decoded folder
listing contains an entry whose folder type is RootFolder, and then it
returns the id of the first such entry (`slices.IndexFunc`). -/
theorem retrieveRootFolderID_found_iff (data : List FoldersData) :
    ((retrieveRootFolderID data).isOk = true ↔
      ∃ e ∈ data, e.folderType = "RootFolder") ∧
    (∀ e, data.find? (fun x => x.folderType == "RootFolder") = some e →
      retrieveRootFolderID data = Except.ok e.id) := by
  constructor
  · unfold retrieveRootFolderID
    cases h : data.find? (fun x => x.folderType == "RootFolder") with
    | some e =>
      have hmem := List.mem_of_find?_eq_some h
      have hp := List.find?_some h
      simp only [Except.isOk, Except.toBool]
      constructor
      · intro _
        exact ⟨e, hmem, by simpa using hp⟩
      · intro _
        trivial
    | none =>
      simp only [Except.isOk, Except.toBool]
      constructor
      · intro hfalse
        cases hfalse
      · rintro ⟨x, hx, hxt⟩
        have := List.find?_eq_none.mp h x hx
        simp [hxt] at this
  · intro e he
    unfold retrieveRootFolderID
    rw [he]

/-- Witness for C7: on `c7Data` the id of the RootFolder entry comes back. -/
theorem retrieveRootFolderID_found_iff_witness :
    retrieveRootFolderID c7Data = Except.ok ("r9") :=
  (retrieveRootFolderID_found_iff c7Data).2 (FoldersData.mk ("RootFolder") ("r9")) (by rfl)

/-- C1 (code bug): `FillFolderNode` spawns 2 child tasks, and when the
task that completes first fails, the barrier receive loop returns that
error after a single receive — only 1 of the 2 completions is consumed,
so the second goroutine stays blocked on the unbuffered channel forever
(an abandoned task), contrary to the drain-all behaviour the claim
states. -/
theorem fillFolderNode_first_error_abandons_siblings :
    c1RF.subs.length = 2 ∧
    (fillFolderSF 3 c1Sched c1Seed c1RF).1 = Except.error (Err.transport 7) ∧
    (fillFolderSF 3 c1Sched c1Seed c1RF).2 = 1 :=
  ⟨rfl, rfl, rfl⟩

/-- C4 counterexample: with file children fetched in the order B, a the
listing returns B before a (byte order, `sort.Slice` with
`CompareDirEntries`), which is not ascending under the case-insensitive
ordinal comparison the claim states — that order would put a before B. -/
theorem list_order_not_case_insensitive :
    fsList (some c4CexNode) "" = Except.ok (Except.ok [c4CexB, c4Cexa]) ∧
    ¬ List.Pairwise (fun x y => ciLe (Entry.remote x) (Entry.remote y)) [c4CexB, c4Cexa] := by
  constructor
  · rfl
  · decide

/-- C4 (amended): every entry sequence a successful `Fs.List` call returns
is sorted ascending by rclone's comparison — a case-sensitive byte-ordinal
comparison of the remote paths, with directory entries before object
entries at equal remotes — and, in particular, file children fetched in
the order b, A, c are listed in the order A, b, c. -/
theorem list_sorted_ordinal :
    (∀ (rootNode : Option Node) (dir : String) (es : List Entry),
      fsList rootNode dir = Except.ok (Except.ok es) → List.Pairwise entryLeP es) ∧
    fsList (some c4Node) "" = Except.ok (Except.ok [c4eA, c4eb, c4ec]) := by
  constructor
  · intro rootNode dir es h
    simp only [fsList] at h
    split at h
    · cases h
    · cases h
    · rename_i node heq
      by_cases hd : node.isDir = false
      · rw [if_pos hd] at h
        simp at h
      · rw [if_neg hd] at h
        simp only [Except.ok.injEq] at h
        rw [← h]
        exact List.sorted_insertionSort entryLeP (node.children.map (entryOf dir))
  · rfl

/-- Witness for the C4 amended theorem at the concrete A, b, c listing. -/
theorem list_sorted_ordinal_witness :
    List.Pairwise entryLeP [c4eA, c4eb, c4ec] :=
  list_sorted_ordinal.1 (some c4Node) "" [c4eA, c4eb, c4ec] (by rfl)

theorem nodeFilled_children (node : Node) (childNodes : List Node) (files : List FileData) :
    (nodeFilled node childNodes files).children
      = node.children ++ childNodes ++ (files.filter fileKeep).map fileToNode :=
  rfl

/-- C5: a file record that is not readable or not downloadable is excluded
from the built tree: for any successful build of a folder (whatever the
completion schedule), under the remote store's unique-file-id assumption
and an initially empty child list, no non-directory child of the filled
node carries that record's id — so the file can never appear in a listing
of the folder. -/
theorem unreadable_file_excluded (fuel : Nat) (s : Sched) (node : Node)
    (subErr : Option Err) (subs : List (FolderMeta × RFolder))
    (filesErr : Option Err) (files : List FileData) (t : Node) (fd : FileData)
    (hok : (fillFolderSF fuel s node (RFolder.mk subErr subs filesErr files)).1 = Except.ok t)
    (hmem : fd ∈ files) (hflag : fd.isReadable = false ∨ fd.isDownloadable = false)
    (hnodup : (files.map FileData.id).Nodup) (hinit : node.children = []) :
    ∀ c ∈ t.children, c.isDir = false → c.id ≠ fd.id := by
  cases fuel with
  | zero => simp [fillFolderSF] at hok
  | succ fuel =>
    obtain ⟨perm, kids⟩ := s
    obtain ⟨_, hse, hfe, hall, ht⟩ :=
      fillS_ok_destruct fuel perm kids node subErr subs filesErr files t hok
    subst ht
    intro c hc hcdir
    rw [nodeFilled_children, hinit, List.nil_append] at hc
    rcases List.mem_append.mp hc with hc | hc
    · have hdir := forall2_isDir (outcomes_forall2 fuel kids subs hall) c hc
      rw [hdir] at hcdir
      cases hcdir
    · obtain ⟨fd2, hfd2, hcc⟩ := List.mem_map.mp hc
      obtain ⟨hfd2mem, hfd2keep⟩ := List.mem_filter.mp hfd2
      subst hcc
      intro heq
      have hid : fd2.id = fd.id := by simpa [fileToNode, Node.id] using heq
      have hfd : fd2 = fd := List.inj_on_of_nodup_map hnodup hfd2mem hmem hid
      subst hfd
      rcases hflag with hflag | hflag <;> simp [fileKeep, hflag] at hfd2keep

/-- Witness for C5: in the build example the one non-directory child of
the result (the kept leaf notes.txt) does not carry the id of the
non-readable record secret.pdf. -/
theorem unreadable_file_excluded_witness :
    Node.id (Node.mk [] "notes.txt" "g1" false 5 12 "text/plain") ≠ exBad.id :=
  unreadable_file_excluded 3 exSched exSeed none exSubs none exFiles exT exBad
    (by rfl) (List.mem_cons_of_mem exGood (List.mem_cons_self exBad []))
    (Or.inl rfl) (by decide) rfl
    (Node.mk [] "notes.txt" "g1" false 5 12 "text/plain")
    (List.mem_cons_of_mem _ (List.mem_cons_of_mem _ (List.mem_cons_self _ _)))
    rfl

/-- C8: a successful `FillFolderNode` build does not depend on the
completion schedule of the spawned subtasks — it equals the schedule-free
reference recursion — and the node's final children sequence is its prior
children, then one directory node per fetched subfolder in fetch-response
order (name and id matching the records), then one leaf per kept file in
fetch-response order. -/
theorem children_order_deterministic (fuel : Nat) (s : Sched) (node : Node)
    (subErr : Option Err) (subs : List (FolderMeta × RFolder))
    (filesErr : Option Err) (files : List FileData) (t : Node)
    (h : (fillFolderSF fuel s node (RFolder.mk subErr subs filesErr files)).1 = Except.ok t) :
    fillFolderF fuel node (RFolder.mk subErr subs filesErr files) = Except.ok t ∧
    ∃ cs, t.children = node.children ++ cs ++ (files.filter fileKeep).map fileToNode ∧
      List.Forall₂ (fun (c : Node) (p : FolderMeta × RFolder) =>
        c.name = p.1.name ∧ c.id = p.1.id ∧ c.isDir = true) cs subs := by
  refine ⟨fillS_ok_imp_fill fuel s node _ t h, ?_⟩
  cases fuel with
  | zero => simp [fillFolderSF] at h
  | succ fuel =>
    obtain ⟨perm, kids⟩ := s
    obtain ⟨_, hse, hfe, hall, ht⟩ :=
      fillS_ok_destruct fuel perm kids node subErr subs filesErr files t h
    subst ht
    refine ⟨_, ?_, outcomes_forall2 fuel kids subs hall⟩
    exact nodeFilled_children node _ files

/-- Witness for C8: the example build (two subfolders, completion order
reversed by the schedule) produces exactly the fetch-order children
alpha, beta, notes.txt, and agrees with the schedule-free recursion. -/
theorem children_order_deterministic_witness :
    fillFolderF 3 exSeed (RFolder.mk none exSubs none exFiles) = Except.ok exT ∧
    ∃ cs, exT.children = exSeed.children ++ cs ++ (exFiles.filter fileKeep).map fileToNode ∧
      List.Forall₂ (fun (c : Node) (p : FolderMeta × RFolder) =>
        c.name = p.1.name ∧ c.id = p.1.id ∧ c.isDir = true) cs exSubs :=
  children_order_deterministic 3 exSched exSeed none exSubs none exFiles exT (by rfl)
